import Mathlib

/-!
# Verification of the vimiv image component (`src/vimiv/image.py`)

A shallow embedding of the `Image` class of `src/vimiv/image.py`.

Modelling conventions:

* Python floats are modelled by `ℚ` (the arithmetic on the inputs relevant to
  the claims is exact); Python ints by `ℤ`/`ℕ`.  Python `%` on a positive
  modulus agrees with `Int.emod`.
* The mutable object state (`self.app.paths`, `self.app.index`,
  `self.zoom_percent`, `self.timer_id`, ...) is gathered in `AppState`.
  External collaborators that the class only reads (file system, decoder,
  window geometry, thumbnail mode, slideshow, the random generator behind
  `random.shuffle`) are gathered in `Env`.
* A Python exception that escapes a method is modelled by `Except.error`
  carrying the exception name; exceptions that the source catches are
  resolved inside the corresponding definition.
* `GLib.timeout_add` / `GLib.source_remove` are modelled by a multiset of
  outstanding source ids (`activeTimers`) plus a fresh-id counter
  (`nextTimer`, ids start at 1 as GLib source ids are positive).
* Status-bar output via `err_message` is recorded in `errMessages`;
  `update_info` only refreshes the info line and is not an error message.
-/

/-- The decoded image (`GdkPixbuf.PixbufAnimation` / `Pixbuf`): its pixel
size and whether `is_static_image()` holds. -/
structure PixbufInfo where
  width : ℤ
  height : ℤ
  isStat : Bool
  deriving DecidableEq, Repr

/-- The mutable state of the `Image` object together with the pieces of
`self.app` state it mutates (`paths`, `index`, `keyhandler.num_str`,
`statusbar.lock`). -/
structure AppState where
  paths : List String
  index : ℕ
  zoom_percent : ℚ
  user_zoomed : Bool
  animation_toggled : Bool
  overzoom : Bool
  shuffleSetting : Bool
  imsize : ℤ × ℤ
  pixbuf : PixbufInfo
  timer_id : ℕ
  activeTimers : List ℕ
  nextTimer : ℕ
  num_str : String
  statusLock : Bool
  errMessages : List String
  deriving DecidableEq, Repr

/-- Read-only collaborators of the `Image` class. -/
structure Env where
  /-- `os.path.exists`. -/
  fsExists : String → Bool
  /-- `GdkPixbuf.PixbufAnimation.new_from_file`: `none` models a raised
  `GLib.Error` (file inaccessible / corrupt). -/
  decode : String → Option PixbufInfo
  /-- `get_available_size()` result. -/
  available : ℤ × ℤ
  /-- `self.app["window"].get_size()[0]`. -/
  windowWidth : ℤ
  /-- `self.app["thumbnail"].toggled`. -/
  thumbnail : Bool
  /-- `self.app["slideshow"].running`. -/
  slideshowRunning : Bool
  /-- `self.app["slideshow"].start_index`. -/
  slideshowStart : ℕ
  /-- The permutation of the list produced by `random.shuffle`
  (`random.shuffle` permutes the list in place; any permutation is a
  possible outcome). -/
  shuffler : List String → List String
  /-- `self.pixbuf_iter.advance()` result. -/
  advanceOk : Bool

/-- Model of `self.app["statusbar"].err_message(m)`: append an error message. -/
def err (s : AppState) (m : String) : AppState :=
  {s with errMessages := s.errMessages ++ [m]}

/-- Test for `"EDIT"` starting exactly at the head of `xs`. -/
def editAtHead : List Char → Bool
  | 'E' :: 'D' :: 'I' :: 'T' :: _ => true
  | _ => false

/-- Python substring containment `"EDIT" in s` on the character list. -/
def hasEditL : List Char → Bool
  | [] => false
  | c :: rest => editAtHead (c :: rest) || hasEditL rest

/-- Python `"EDIT" in s` for a string `s`. -/
def hasEdit (s : String) : Bool := hasEditL s.data

/-- Model of `Image.check_for_edit(force)` (image.py lines 69-82).  Returns the
Python return value `0`/`1` together with the state (an error message is
emitted in the `1` case).  `self.app.paths[self.app.index]` raises
`IndexError` when the index is out of range of a non-empty list; the check
on `force` happens only after that subscript. -/
def check_for_edit (s : AppState) (force : Bool) : Except String (AppState × ℕ) :=
  if s.paths = [] then .ok (s, 0)
  else if s.index < s.paths.length then
    if hasEdit (s.paths.getD s.index "") = true ∧ force = false then
      .ok (err s "Image has been edited, add ! to force", 1)
    else .ok (s, 0)
  else .error "IndexError"

/-- Model of `Image.get_zoom_percent_to_fit(z_width, z_height)` (image.py lines
84-110).  Divisions are exact on `ℚ`; the claims only use states with
positive pixbuf and viewport sizes, where Python float division is defined. -/
def get_zoom_percent_to_fit (s : AppState) (z_width z_height : Bool) : ℚ :=
  let pbo_scale : ℚ := (s.pixbuf.width : ℚ) / (s.pixbuf.height : ℚ)
  let w_scale : ℚ := (s.imsize.1 : ℚ) / (s.imsize.2 : ℚ)
  let stickout : Bool := z_width || z_height
  if s.pixbuf.width < s.imsize.1 ∧ s.pixbuf.height < s.imsize.2 ∧
      (stickout || s.overzoom) = false then 1
  else if (pbo_scale < w_scale ∧ stickout = false) ∨ z_height = true then
    (s.imsize.2 : ℚ) / (s.pixbuf.height : ℚ)
  else (s.imsize.1 : ℚ) / (s.pixbuf.width : ℚ)

/-- Model of `GLib.timeout_add(delay, self.play_gif)`: allocate a fresh source id,
schedule it, and return it. -/
def timeout_add (s : AppState) : ℕ × AppState :=
  (s.nextTimer,
   {s with activeTimers := s.activeTimers ++ [s.nextTimer],
           nextTimer := s.nextTimer + 1})

/-- Model of `GLib.source_remove(id)`: unschedule the source with the given id. -/
def source_remove (s : AppState) (id : ℕ) : AppState :=
  {s with activeTimers := s.activeTimers.erase id}

/-- Model of `Image.play_gif` (image.py lines 151-158): render the current frame;
if `advance()` reports a new frame, remove the source recorded in
`timer_id` and schedule a new one. -/
def play_gif (env : Env) (s : AppState) : AppState :=
  if env.advanceOk then
    let s1 := source_remove s s.timer_id
    let p := timeout_add s1
    {p.2 with timer_id := p.1}
  else s

/-- Model of `Image.pause_gif` (image.py lines 160-167). -/
def pause_gif (s : AppState) : AppState :=
  if s.timer_id ≠ 0 then
    {source_remove s s.timer_id with timer_id := 0}
  else s

/-- Model of `Image.update(update_info, update_gif)` (image.py lines 112-149).
The `try` block (scaling the pixbuf and setting it on the widget) succeeds
exactly when the current pixbuf is a static `Pixbuf` (a `PixbufAnimation`
has no `scale_simple`, raising `AttributeError`) and the current index is
in range of `paths` (the subscript at line 129); on any failure the bare
`except` treats the image as an animation. -/
def update (env : Env) (s : AppState) (update_info update_gif : Bool) : AppState :=
  if s.paths = [] then s
  else if s.pixbuf.isStat = true ∧ s.index < s.paths.length then
    s
  else
    let s1 := {s with zoom_percent := 1}
    if update_gif then
      if s1.animation_toggled = false then
        let p := timeout_add s1
        play_gif env {p.2 with timer_id := p.1}
      else pause_gif s1
    else s1

/-- Model of `Image.zoom_delta(delta)` (image.py lines 186-206).  The `except`
handler reverts by dividing by `1 + delta`; when `1 + delta = 0` that
division raises `ZeroDivisionError`, which nothing catches, so the call
propagates the exception (`Except.error`). -/
def zoom_delta (env : Env) (s : AppState) (delta : ℚ) : Except String AppState :=
  if env.thumbnail then .ok s
  else
    let zp : ℚ := s.zoom_percent * (1 + delta)
    let s1 := {s with zoom_percent := zp}
    if (s1.pixbuf.height : ℚ) * zp < 50 ∨
        (s1.pixbuf.height : ℚ) * zp > (env.windowWidth : ℚ) * 5 then
      if (1 : ℚ) + delta = 0 then .error "ZeroDivisionError"
      else
        .ok (err {s1 with zoom_percent := zp / (1 + delta)}
              "Warning: Object cannot be zoomed (further)")
    else
      .ok (update env {s1 with user_zoomed := true} true false)

/-- Value of a decimal digit string, as `int()`/`float()` read it. -/
def digitsVal (l : List Char) : ℕ :=
  l.foldl (fun a c => a * 10 + (c.toNat - '0'.toNat)) 0

/-- Python `float()` restricted to the digit strings produced by the
numeric-prefix buffer: a non-empty all-digit string parses to its value,
anything else (including `""`) raises, modelled by `none`. -/
def pyFloatDigits (s : String) : Option ℚ :=
  if s.data ≠ [] ∧ s.data.all Char.isDigit then some (digitsVal s.data)
  else none

/-- The percent-string parsing `try` block of `Image.zoom_to` (image.py
lines 225-233): a leading `"0"` means invert the value of the remainder
(`1 / float(percent[1:])`, where a zero remainder raises
`ZeroDivisionError`, caught by the same `except`); otherwise the whole
string is `float()`-parsed.  `none` models the caught-exception path. -/
def parse_num_str (ns : String) : Option ℚ :=
  match ns.data with
  | [] => none
  | c :: rest =>
    if c = '0' then
      match pyFloatDigits (String.mk rest) with
      | none => none
      | some v => if v = 0 then none else some (1 / v)
    else pyFloatDigits ns

/-- The second `try` block of `Image.zoom_to` (image.py lines 235-248):
set `imsize`, pick the explicit percent or the fit value, band-check,
revert and warn on failure. -/
def zoom_to_apply (env : Env) (s : AppState) (before percent : ℚ)
    (z_width z_height : Bool) : AppState :=
  let s1 := {s with imsize := env.available}
  let zp : ℚ :=
    if percent ≠ 0 then percent else get_zoom_percent_to_fit s1 z_width z_height
  let s2 := {s1 with zoom_percent := zp}
  if (s2.pixbuf.height : ℚ) * zp < 5 ∨
      (s2.pixbuf.height : ℚ) * zp > (env.windowWidth : ℚ) * 5 then
    err {s2 with zoom_percent := before}
      "Warning: Object cannot be zoomed (further)"
  else update env s2 true false

/-- Model of `Image.zoom_to(percent, z_width, z_height)` (image.py lines 208-248).
Both `try` blocks end in bare `except` handlers, so no exception escapes
this method. -/
def zoom_to (env : Env) (s : AppState) (percent : ℚ) (z_width z_height : Bool) :
    AppState :=
  if env.thumbnail then s
  else
    let before := s.zoom_percent
    let s1 := {s with user_zoomed := false}
    if s1.num_str ≠ "" then
      let s2 := {s1 with user_zoomed := true}
      match parse_num_str s2.num_str with
      | none => err s2 "Error: Zoom percentage not parseable"
      | some p =>
        let s3 := {s2 with num_str := ""}
        zoom_to_apply env s3 before p z_width z_height
    else zoom_to_apply env s1 before percent z_width z_height

/-- Modelled from the spec: `self.app["manipulate"].delete()` lives in the
`manipulate` module, which is not under `src/`.  Per spec section 4.4 a
missing navigation target "reports an error, removes the path from
PathStore"; the removed entry is the current one.  No theorem below
exercises this branch. -/
def manipulateDelete (s : AppState) : AppState :=
  if s.index < s.paths.length then
    err {s with paths := s.paths.eraseIdx s.index} "Error: file vanished"
  else err s "Error: file vanished"

/-- The tail of `Image.show_image` shared by the existence branches
(image.py lines 325-336): classify static vs animated, recompute the fit
or reset the zoom, stop a running gif timer, and call
`update(update_image)` (whose `update_gif` argument defaults to `True`). -/
def show_image_tail (env : Env) (s : AppState) (update_image : Bool) : AppState :=
  let s1 :=
    if s.pixbuf.isStat = true then
      let sa := {s with imsize := env.available}
      {sa with zoom_percent := get_zoom_percent_to_fit sa false false}
    else {s with zoom_percent := 1}
  let s2 := if s1.timer_id ≠ 0 then pause_gif s1 else s1
  update env s2 update_image true

mutual

/-- Model of `Image.show_image(path, update_image)` (image.py lines 307-343).
`GdkPixbuf.PixbufAnimation.new_from_file` raising `GLib.Error`
(`Env.decode` returning `none`) is the only raise site reaching the
`except GLib.Error` handler, which removes the path, reports one error and
calls `move_pos(False)`; that call re-enters the navigation machinery, so
the recursion is fuel-indexed (real executions remove one path per round
and cannot exhaust `paths.length + 1` fuel).  The result is the state
paired with the Python `errorcode`. -/
def show_image (env : Env) :
    ℕ → AppState → String → Bool → Except String (AppState × ℕ)
  | 0, _, _, _ => .error "FuelExhausted"
  | fuel + 1, s, path, update_image =>
    if env.fsExists path = false then
      .ok (show_image_tail env (manipulateDelete s) update_image, 1)
    else
      match env.decode path with
      | none =>
        let s1 := err {s with paths := s.paths.erase path}
                    "Error: file not accessible"
        match move_pos env fuel s1 false false with
        | .error e => .error e
        | .ok (s2, _) => .ok (s2, 1)
      | some pb =>
        .ok (show_image_tail env {s with pixbuf := pb} update_image, 0)

/-- Model of `Image.move_pos(forward, force)` (image.py lines 345-386).  The first
`try` turns both a `check_for_edit` refusal and an `IndexError` from its
subscript into an early `return` (`none` return value); the second `try`
rejects positions with `pos < 0 or pos > max_pos`.  `self.app.get_pos`
(module not under src/) is modelled from the spec as reading CurrentIndex. -/
def move_pos (env : Env) :
    ℕ → AppState → Bool → Bool → Except String (AppState × Option Bool)
  | 0, _, _, _ => .error "FuelExhausted"
  | fuel + 1, s, forward, force =>
    match check_for_edit s force with
    | .error _ => .ok (s, none)
    | .ok (s1, r) =>
      if r = 1 then .ok (s1, none)
      else
        let max_pos : ℤ := s1.paths.length
        let current : ℤ := s1.index
        let pos : ℤ :=
          if s1.num_str ≠ "" then digitsVal s1.num_str.data
          else if forward then max_pos else 1
        if pos < 0 ∨ pos > max_pos then
          .ok (err s1 "Warning: Unsupported index", some false)
        else if env.thumbnail then
          .ok ({s1 with num_str := ""}, some true)
        else
          match move_index env fuel s1 true false (pos - current - 1) false with
          | .error e => .error e
          | .ok (s2, _) =>
            .ok ({s2 with user_zoomed := false, num_str := ""}, some true)

/-- Model of `Image.move_index(forward, key, delta, force)` (image.py lines
265-305).  `check_for_edit` runs outside any `try`, so its `IndexError`
propagates.  `self.app.index is 0` and `delta is not 0` compare interned
small ints, i.e. value equality.  On a forward wrap to index 0 with the
shuffle setting active, `shuffle(self.app.paths)` permutes the whole list
(`Env.shuffler` supplies the permutation drawn by `random.shuffle`). -/
def move_index (env : Env) :
    ℕ → AppState → Bool → Bool → ℤ → Bool → Except String (AppState × Option Bool)
  | 0, _, _, _, _, _ => .error "FuelExhausted"
  | fuel + 1, s, forward, key, delta, force =>
    if s.paths = [] ∨ env.thumbnail = true then .ok (s, none)
    else
      match check_for_edit s force with
      | .error e => .error e
      | .ok (s1, r) =>
        if r = 1 then .ok (s1, none)
        else
          let d1 : ℤ :=
            if key = true ∧ s1.num_str ≠ "" then
              delta * digitsVal s1.num_str.data
            else delta
          let d2 : ℤ := if forward = false then -d1 else d1
          let newIdx : ℕ := (((s1.index : ℤ) + d2) % (s1.paths.length : ℤ)).toNat
          let s2 := {s1 with index := newIdx, user_zoomed := false}
          let s3 :=
            if s2.shuffleSetting = true ∧ newIdx = 0 ∧ 0 < d2 then
              {s2 with paths := env.shuffler s2.paths}
            else s2
          if s3.index < s3.paths.length then
            match show_image env fuel s3 (s3.paths.getD s3.index "") (d2 ≠ 0) with
            | .error e => .error e
            | .ok (s4, returncode) =>
              let s5 :=
                if env.slideshowRunning = true ∧ returncode = 0 then
                  if s4.index = env.slideshowStart then
                    err {s4 with statusLock := true}
                      "Info: back at beginning of slideshow"
                  else {s4 with statusLock := false}
                else s4
              .ok ({s5 with num_str := ""}, some true)
          else .error "IndexError"

end

/-- The state component of a navigation result, when the call returned
normally. -/
def okState {β : Type} (r : Except String (AppState × β)) : Option AppState :=
  match r with
  | .ok p => some p.1
  | .error _ => none

/-- The Python return value of a navigation result, when the call returned
normally. -/
def okRet {β : Type} (r : Except String (AppState × β)) : Option β :=
  match r with
  | .ok p => some p.2
  | .error _ => none

/-- Sequencing of two navigation calls: run the second from the state the
first returned (propagating an escaped exception). -/
def afterOk (r : Except String (AppState × Option Bool))
    (k : AppState → Except String (AppState × Option Bool)) :
    Except String (AppState × Option Bool) :=
  match r with
  | .ok p => k p.1
  | .error e => .error e

/-! ## Concrete fixtures used by witnesses and counterexamples -/

/-- A plain viewer state: one static image loaded, nothing pending. -/
def baseState : AppState :=
  { paths := ["a.png"], index := 0, zoom_percent := 1, user_zoomed := false,
    animation_toggled := false, overzoom := false, shuffleSetting := false,
    imsize := (800, 600), pixbuf := ⟨100, 80, true⟩, timer_id := 0,
    activeTimers := [], nextTimer := 1, num_str := "", statusLock := false,
    errMessages := [] }

/-- A plain environment: every file exists and decodes to a small static
image, image mode active, no slideshow, identity shuffle. -/
def baseEnv : Env :=
  { fsExists := fun _ => true, decode := fun _ => some ⟨100, 80, true⟩,
    available := (800, 600), windowWidth := 800, thumbnail := false,
    slideshowRunning := false, slideshowStart := 0, shuffler := id,
    advanceOk := true }

/-! ## C4: fit percent is exactly 1 when the image fits -/

/-- C4: for every state whose pixbuf fits the available size on both axes
(including equality on an axis), with overzoom off and neither axis flag
set, `get_zoom_percent_to_fit` returns exactly 1. -/
theorem fit_percent_one_when_image_fits (s : AppState)
    (hoz : s.overzoom = false)
    (hw : 0 < s.pixbuf.width) (hh : 0 < s.pixbuf.height)
    (hle1 : s.pixbuf.width ≤ s.imsize.1) (hle2 : s.pixbuf.height ≤ s.imsize.2) :
    get_zoom_percent_to_fit s false false = 1 := by
  have hw' : (0 : ℚ) < (s.pixbuf.width : ℚ) := by exact_mod_cast hw
  have hh' : (0 : ℚ) < (s.pixbuf.height : ℚ) := by exact_mod_cast hh
  have hi1 : (0 : ℚ) < (s.imsize.1 : ℚ) := by
    exact_mod_cast lt_of_lt_of_le hw hle1
  have hi2 : (0 : ℚ) < (s.imsize.2 : ℚ) := by
    exact_mod_cast lt_of_lt_of_le hh hle2
  unfold get_zoom_percent_to_fit
  simp only [hoz, Bool.or_false, Bool.false_or]
  split_ifs with h1 h2
  · rfl
  · -- the "portrait" branch: the height must be at the bound
    have hph : s.pixbuf.height = s.imsize.2 := by
      rcases lt_or_eq_of_le hle2 with hlt | he
      · exfalso
        have hpw : s.pixbuf.width = s.imsize.1 := by
          rcases lt_or_eq_of_le hle1 with hlt1 | he1
          · exact absurd ⟨hlt1, hlt, trivial⟩ h1
          · exact he1
        rcases h2 with ⟨hdiv, -⟩ | hfb
        · have hlt' : (s.pixbuf.height : ℚ) < (s.imsize.2 : ℚ) := by
            exact_mod_cast hlt
          rw [hpw, div_lt_div_iff₀ hh' hi2] at hdiv
          have := (mul_lt_mul_left hi1).mp hdiv
          exact absurd this (not_lt.mpr (le_of_lt hlt'))
        · exact hfb
      · exact he
    rw [hph, div_self (ne_of_gt hi2)]
  · -- the "landscape" branch: the width must be at the bound
    have hpw : s.pixbuf.width = s.imsize.1 := by
      rcases lt_or_eq_of_le hle1 with hlt | he
      · exfalso
        have hph : s.pixbuf.height = s.imsize.2 := by
          rcases lt_or_eq_of_le hle2 with hlt2 | he2
          · exact absurd ⟨hlt, hlt2, trivial⟩ h1
          · exact he2
        apply h2
        left
        refine ⟨?_, trivial⟩
        have hlt' : (s.pixbuf.width : ℚ) < (s.imsize.1 : ℚ) := by
          exact_mod_cast hlt
        rw [div_lt_div_iff₀ hh' hi2, hph]
        exact (mul_lt_mul_right hi2).mpr hlt'
      · exact he
    rw [hpw, div_self (ne_of_gt hi1)]

/-- C4 witness: a concrete state with the width exactly at the available
width (the equality edge the claim highlights) yields fit percent 1. -/
theorem fit_percent_one_when_image_fits_witness :
    get_zoom_percent_to_fit {baseState with imsize := (100, 200)} false false = 1 :=
  fit_percent_one_when_image_fits _ (by decide) (by decide) (by decide)
    (by decide) (by decide)

/-! ## C1: the at-most-one-timer invariant -/

/-- The state of C1: an animated image is loaded (`is_static_image()`
false), animations not paused, no timer scheduled yet. -/
def gifState : AppState :=
  {baseState with paths := ["a.gif"], pixbuf := ⟨100, 80, false⟩}

/-- C1 counterexample: entering the animated branch of `update` twice in
succession (the second time while the callback scheduled by the first is
still outstanding) leaves TWO outstanding scheduled callbacks, not one:
`update` overwrites `timer_id` without cancelling the previously scheduled
source, and `play_gif` only cancels the source recorded in `timer_id`. -/
theorem double_start_two_timers_counterexample :
    (update baseEnv (update baseEnv gifState true true) true true).activeTimers.length = 2 ∧
    (update baseEnv (update baseEnv gifState true true) true true).activeTimers.length ≠ 1 := by
  constructor <;> decide

/-- C1 amended: the re-arm in `play_gif` does cancel the scheduled callback
recorded in `timer_id` before scheduling a new one (preserving the number
of outstanding callbacks), but the animated branch of `update` schedules a
fresh callback without cancelling any previously scheduled one, so each
start adds exactly one outstanding callback and two starts in succession
leave two. -/
theorem play_gif_preserves_update_adds_timer (env : Env) (s : AppState)
    (hmem : s.timer_id ∈ s.activeTimers) :
    (play_gif env s).activeTimers.length = s.activeTimers.length ∧
    (s.paths ≠ [] → s.pixbuf.isStat = false → s.animation_toggled = false →
      (update env s true true).activeTimers.length = s.activeTimers.length + 1) := by
  constructor
  · unfold play_gif source_remove timeout_add
    by_cases hadv : env.advanceOk
    · simp only [hadv, if_true, List.length_append, List.length_cons,
        List.length_nil]
      rw [List.length_erase_of_mem hmem]
      have : 0 < s.activeTimers.length := List.length_pos_of_mem hmem
      omega
    · simp [hadv]
  · intro hne hst hat
    unfold update
    simp only [hne, if_false, hst]
    have hcond : ¬(false = true ∧ s.index < s.paths.length) := by
      intro h
      exact Bool.false_ne_true h.1
    simp only [if_neg hne, hcond, if_false, if_true, hat]
    unfold play_gif source_remove timeout_add
    by_cases hadv : env.advanceOk
    · simp only [hadv, if_true, List.length_append, List.length_cons,
        List.length_nil]
      have hmem2 : s.nextTimer ∈ s.activeTimers ++ [s.nextTimer] := by
        simp
      rw [List.length_erase_of_mem hmem2]
      simp
    · simp [hadv]

/-- C1 amended witness: instantiated at a state with one outstanding
callback recorded in `timer_id`: `play_gif` keeps one outstanding, and at
`gifState` a start adds one. -/
theorem play_gif_preserves_update_adds_timer_witness :
    (play_gif baseEnv {gifState with timer_id := 1, activeTimers := [1], nextTimer := 2}).activeTimers.length = 1 ∧
    (update baseEnv {gifState with timer_id := 1, activeTimers := [1], nextTimer := 2} true true).activeTimers.length = 2 := by
  have h := play_gif_preserves_update_adds_timer baseEnv
    {gifState with timer_id := 1, activeTimers := [1], nextTimer := 2} (by decide)
  exact ⟨h.1, h.2 (by decide) (by decide) (by decide)⟩

/-! ## C2: controller operations never propagate an exception -/

/-- C2 (code bug): `zoom_delta(-1)` multiplies the zoom by `1 + (-1) = 0`,
the sanity band rejects the resulting size, and the `except` handler
reverts by dividing by `1 + delta = 0` — an uncaught `ZeroDivisionError`
escapes to the caller, contradicting the propagation policy that every
error inside the controller becomes a status message. -/
theorem zoom_delta_minus_one_raises :
    zoom_delta baseEnv {baseState with zoom_percent := 2} (-1) =
      .error "ZeroDivisionError" := by
  norm_num [zoom_delta, baseEnv, baseState]

/-! ## C7: rejected zoom leaves the percent unchanged -/

/-- C7 counterexample: at `delta = -1` the resulting displayed height (0)
is below the lower bound, yet `zoom_delta` raises `ZeroDivisionError`
instead of reporting a warning and retaining the previous percent. -/
theorem rejected_zoom_raises_at_minus_one_counterexample :
    zoom_delta baseEnv baseState (-1) = .error "ZeroDivisionError" := by
  norm_num [zoom_delta, baseEnv, baseState]

/-- C7 amended: for every `delta` with `1 + delta ≠ 0` whose resulting
displayed height falls outside the band (below 50 or above 5 times the
window width), `zoom_delta` returns normally, reports exactly one warning,
and leaves `zoom_percent` (and every other field) exactly at its pre-call
value; the revert is exact because `p * (1 + delta) / (1 + delta) = p`. -/
theorem rejected_zoom_keeps_percent (env : Env) (s : AppState) (delta : ℚ)
    (hth : env.thumbnail = false) (hd : (1 : ℚ) + delta ≠ 0)
    (hband : (s.pixbuf.height : ℚ) * (s.zoom_percent * (1 + delta)) < 50 ∨
      (s.pixbuf.height : ℚ) * (s.zoom_percent * (1 + delta)) >
        (env.windowWidth : ℚ) * 5) :
    zoom_delta env s delta =
      .ok (err s "Warning: Object cannot be zoomed (further)") := by
  unfold zoom_delta
  rw [hth]
  simp only [Bool.false_eq_true, if_false, if_pos hband, if_neg hd]
  have hrev : s.zoom_percent * (1 + delta) / (1 + delta) = s.zoom_percent :=
    mul_div_cancel_right₀ s.zoom_percent hd
  rw [hrev]

/-- C7 amended witness: a huge zoom delta on the base state is rejected
with a warning and the percent is exactly restored. -/
theorem rejected_zoom_keeps_percent_witness :
    zoom_delta baseEnv baseState 100 =
      .ok (err baseState "Warning: Object cannot be zoomed (further)") :=
  rejected_zoom_keeps_percent baseEnv baseState 100 (by decide) (by norm_num)
    (by right; norm_num [baseEnv, baseState])

/-! ## C8: percent-string parsing in zoom_to -/

/-- Helper: a non-empty digit string with a leading `"0"` parses to the
inverse of the value of the remainder. -/
theorem parse_inverts_leading_zero (d : List Char) (hne : d ≠ [])
    (hdig : d.all Char.isDigit = true) (hval : digitsVal d ≠ 0) :
    parse_num_str (String.mk ('0' :: d)) = some (1 / (digitsVal d : ℚ)) := by
  show (if ('0' : Char) = '0' then
          match pyFloatDigits (String.mk d) with
          | none => none
          | some v => if v = 0 then none else some (1 / v)
        else pyFloatDigits (String.mk ('0' :: d))) = some (1 / (digitsVal d : ℚ))
  rw [if_pos rfl]
  have hpf : pyFloatDigits (String.mk d) = some ((digitsVal d : ℚ)) := by
    unfold pyFloatDigits
    rw [if_pos ⟨hne, hdig⟩]
  rw [hpf]
  have hq : ((digitsVal d : ℚ)) ≠ 0 := by exact_mod_cast hval
  show (if ((digitsVal d : ℚ)) = 0 then none
        else some (1 / (digitsVal d : ℚ))) = some (1 / (digitsVal d : ℚ))
  rw [if_neg hq]

/-- Helper: a digit string not starting with `"0"` parses to its literal
value. -/
theorem parse_literal_value (c : Char) (d : List Char) (hc : c.isDigit = true)
    (hc0 : c ≠ '0') (hdig : d.all Char.isDigit = true) :
    parse_num_str (String.mk (c :: d)) = some ((digitsVal (c :: d) : ℚ)) := by
  show (if c = '0' then
          match pyFloatDigits (String.mk d) with
          | none => none
          | some v => if v = 0 then none else some (1 / v)
        else pyFloatDigits (String.mk (c :: d))) = some ((digitsVal (c :: d) : ℚ))
  rw [if_neg hc0]
  unfold pyFloatDigits
  rw [if_pos ⟨by simp, by simp [hc, hdig]⟩]

/-- C8: percent-string parsing: a leading `"0"` inverts the remainder
(`"0004"` parses to 1/4), any other digit string parses literally
(`"150"` to 150), and a malformed string (`"abc"`) takes the caught-error
path: `zoom_to` reports one parse error message and leaves `zoom_percent`
unchanged. -/
theorem percent_string_parsing :
    (∀ d : List Char, d ≠ [] → d.all Char.isDigit = true → digitsVal d ≠ 0 →
      parse_num_str (String.mk ('0' :: d)) = some (1 / (digitsVal d : ℚ))) ∧
    (∀ (c : Char) (d : List Char), c.isDigit = true → c ≠ '0' →
      d.all Char.isDigit = true →
      parse_num_str (String.mk (c :: d)) = some ((digitsVal (c :: d) : ℚ))) ∧
    parse_num_str "0004" = some (1 / 4) ∧
    parse_num_str "150" = some 150 ∧
    parse_num_str "abc" = none ∧
    zoom_to baseEnv {baseState with num_str := "abc"} 0 false false =
      err {baseState with num_str := "abc", user_zoomed := true}
        "Error: Zoom percentage not parseable" := by
  refine ⟨parse_inverts_leading_zero, parse_literal_value, ?_, ?_, rfl, rfl⟩
  · have h := parse_inverts_leading_zero ['0', '0', '4'] (by decide) (by decide)
      (by decide)
    have hv : digitsVal ['0', '0', '4'] = 4 := by decide
    rw [hv] at h
    have hs : "0004" = String.mk ['0', '0', '0', '4'] := rfl
    rw [hs, h]
    norm_num
  · have h := parse_literal_value '1' ['5', '0'] (by decide) (by decide) (by decide)
    have hv : digitsVal ['1', '5', '0'] = 150 := by decide
    rw [hv] at h
    have hs : "150" = String.mk ['1', '5', '0'] := rfl
    rw [hs, h]
    norm_num

/-- C8 witness: the two universally quantified parsing laws instantiated
at fresh concrete strings. -/
theorem percent_string_parsing_witness :
    parse_num_str "07" = some (1 / 7) ∧ parse_num_str "23" = some 23 := by
  constructor
  · have h := percent_string_parsing.1 ['7'] (by decide) (by decide) (by decide)
    have hv : digitsVal ['7'] = 7 := by decide
    rw [hv] at h
    have hs : "07" = String.mk ['0', '7'] := rfl
    rw [hs, h]
    norm_num
  · have h := percent_string_parsing.2.1 '2' ['3'] (by decide) (by decide)
      (by decide)
    have hv : digitsVal ['2', '3'] = 23 := by decide
    rw [hv] at h
    have hs : "23" = String.mk ['2', '3'] := rfl
    rw [hs, h]
    norm_num

/-! ## Navigation helper lemmas -/

/-- Every path in the list exists on disk and decodes to a static image. -/
def Accessible (env : Env) (paths : List String) : Prop :=
  ∀ p ∈ paths, env.fsExists p = true ∧
    ∃ pb : PixbufInfo, env.decode p = some pb ∧ pb.isStat = true

/-- Property of `random.shuffle` outcomes: it permutes in place, so the outcome has the same length
and the same members. -/
def ShufflerOk (env : Env) : Prop :=
  ∀ l : List String, (env.shuffler l).length = l.length ∧
    ∀ p ∈ env.shuffler l, p ∈ l

/-- Running `show_image_tail` on a static pixbuf with an in-range index changes
neither the path list, nor the index, nor any message or input buffer. -/
theorem show_image_tail_fields (env : Env) (s : AppState) (u : Bool)
    (hst : s.pixbuf.isStat = true) (hne : s.paths ≠ [])
    (hidx : s.index < s.paths.length) :
    (show_image_tail env s u).index = s.index ∧
    (show_image_tail env s u).paths = s.paths ∧
    (show_image_tail env s u).errMessages = s.errMessages ∧
    (show_image_tail env s u).num_str = s.num_str ∧
    (show_image_tail env s u).shuffleSetting = s.shuffleSetting := by
  unfold show_image_tail update pause_gif source_remove
  simp only [hst, if_true, reduceIte]
  split <;> simp [hne, hidx, hst]

/-- Running `show_image` on an existing path that decodes to a static image
returns errorcode 0 and leaves list, index, messages and input buffer
unchanged. -/
theorem show_image_ok (env : Env) (f : ℕ) (s : AppState) (path : String)
    (u : Bool) (hex : env.fsExists path = true) (pb : PixbufInfo)
    (hdec : env.decode path = some pb) (hst : pb.isStat = true)
    (hne : s.paths ≠ []) (hidx : s.index < s.paths.length) :
    ∃ s', show_image env (f + 1) s path u = .ok (s', 0) ∧
      s'.index = s.index ∧ s'.paths = s.paths ∧
      s'.errMessages = s.errMessages ∧ s'.num_str = s.num_str ∧
      s'.shuffleSetting = s.shuffleSetting := by
  refine ⟨show_image_tail env {s with pixbuf := pb} u, ?_, ?_⟩
  · unfold show_image
    rw [hex]
    simp only [Bool.true_eq_false, if_false, hdec]
  · have h := show_image_tail_fields env {s with pixbuf := pb} u hst hne hidx
    simpa using h

/-- A successful forward `move_index(True, None, d, force)` in image mode
with no slideshow: the current-path edit check passes (no "EDIT" marker or
`force`), the index advances by `d` modulo the list length, the list is
reshuffled (as a whole) exactly when the shuffle setting is on and a
positive `d` lands on index 0, no error message is emitted, and the
numeric prefix buffer is cleared. -/
theorem move_index_ok (env : Env) (f : ℕ) (s : AppState) (d : ℤ) (force : Bool)
    (hne : s.paths ≠ []) (hidx : s.index < s.paths.length)
    (hth : env.thumbnail = false) (hsl : env.slideshowRunning = false)
    (hacc : Accessible env s.paths) (hshuf : ShufflerOk env)
    (hedit : hasEdit (s.paths.getD s.index "") = false ∨ force = true) :
    ∃ s', move_index env (f + 2) s true false d force = .ok (s', some true) ∧
      s'.index = (((s.index : ℤ) + d) % (s.paths.length : ℤ)).toNat ∧
      s'.paths = (if s.shuffleSetting = true ∧
          (((s.index : ℤ) + d) % (s.paths.length : ℤ)).toNat = 0 ∧ 0 < d
        then env.shuffler s.paths else s.paths) ∧
      s'.errMessages = s.errMessages ∧
      s'.num_str = "" ∧ s'.shuffleSetting = s.shuffleSetting ∧
      s'.paths.length = s.paths.length ∧ (∀ p ∈ s'.paths, p ∈ s.paths) := by
  have hlen : 0 < s.paths.length := List.length_pos.mpr hne
  have hcfe : check_for_edit s force = .ok (s, 0) := by
    unfold check_for_edit
    rw [if_neg hne, if_pos hidx]
    rcases hedit with he | hf
    · rw [if_neg]
      intro hcontra
      rw [he] at hcontra
      exact absurd hcontra.1 (by simp)
    · rw [if_neg]
      intro hcontra
      rw [hf] at hcontra
      exact absurd hcontra.2 (by simp)
  set newIdx : ℕ := (((s.index : ℤ) + d) % (s.paths.length : ℤ)).toNat with hnew
  have hmodlt : newIdx < s.paths.length := by
    rw [hnew]
    have h1 : 0 ≤ ((s.index : ℤ) + d) % (s.paths.length : ℤ) :=
      Int.emod_nonneg _ (by exact_mod_cast Nat.pos_iff_ne_zero.mp hlen)
    have h2 : ((s.index : ℤ) + d) % (s.paths.length : ℤ) < (s.paths.length : ℤ) :=
      Int.emod_lt_of_pos _ (by exact_mod_cast hlen)
    omega
  unfold move_index
  rw [if_neg (by simp [hne, hth]), hcfe]
  simp only [OfNat.zero_ne_ofNat, if_false, Bool.false_eq_true,
    Bool.true_eq_false, false_and, if_neg (by simp : ¬(0 = 1)), ite_false,
    ite_true, ← hnew]
  by_cases hP : s.shuffleSetting = true ∧ newIdx = 0 ∧ 0 < d
  · -- reshuffle triggered
    have hlen2 : (env.shuffler s.paths).length = s.paths.length := (hshuf s.paths).1
    have hne2 : env.shuffler s.paths ≠ [] := by
      intro hc
      rw [hc] at hlen2
      simp only [List.length_nil] at hlen2
      omega
    have hlt2 : newIdx < (env.shuffler s.paths).length := by
      rw [hlen2]
      exact hmodlt
    simp only [if_pos hP]
    rw [if_pos (by simpa using hlt2)]
    have hmem : (env.shuffler s.paths).getD newIdx "" ∈ s.paths := by
      rw [List.getD_eq_get _ _ hlt2]
      exact (hshuf s.paths).2 _ (List.get_mem _ _ _)
    obtain ⟨hex, pb, hdec, hst⟩ := hacc _ hmem
    obtain ⟨s4, hrun, hi4, hp4, he4, hn4, hs4⟩ :=
      show_image_ok env f
        { s with paths := env.shuffler s.paths, index := newIdx,
                 user_zoomed := false }
        ((env.shuffler s.paths).getD newIdx "") (decide (¬d = 0))
        hex pb hdec hst (by simpa using hne2) (by simpa using hlt2)
    simp only [hrun, hsl, Bool.false_eq_true, false_and, if_false]
    refine ⟨{s4 with num_str := ""}, rfl, ?_, ?_, ?_, rfl, ?_, ?_, ?_⟩
    · simpa using hi4
    · simpa using hp4
    · simpa using he4
    · simpa using hs4
    · have hp : s4.paths = env.shuffler s.paths := by simpa using hp4
      simp [hp, hlen2]
    · intro p hp
      have hpp : s4.paths = env.shuffler s.paths := by simpa using hp4
      have hp2 : p ∈ s4.paths := by simpa using hp
      rw [hpp] at hp2
      exact (hshuf s.paths).2 _ hp2
  · -- no reshuffle
    simp only [if_neg hP]
    rw [if_pos (by simpa using hmodlt)]
    have hmem : s.paths.getD newIdx "" ∈ s.paths := by
      rw [List.getD_eq_get _ _ hmodlt]
      exact List.get_mem _ _ _
    obtain ⟨hex, pb, hdec, hst⟩ := hacc _ hmem
    obtain ⟨s4, hrun, hi4, hp4, he4, hn4, hs4⟩ :=
      show_image_ok env f
        { s with index := newIdx, user_zoomed := false }
        (s.paths.getD newIdx "") (decide (¬d = 0))
        hex pb hdec hst (by simpa using hne) (by simpa using hmodlt)
    simp only [hrun, hsl, Bool.false_eq_true, false_and, if_false]
    refine ⟨{s4 with num_str := ""}, rfl, ?_, ?_, ?_, rfl, ?_, ?_, ?_⟩
    · simpa using hi4
    · simpa using hp4
    · simpa using he4
    · simpa using hs4
    · have hp : s4.paths = s.paths := by simpa using hp4
      simp [hp]
    · intro p hp
      have hpp : s4.paths = s.paths := by simpa using hp4
      have hp2 : p ∈ s4.paths := by simpa using hp
      rw [hpp] at hp2
      exact hp2

/-- The entry that the Python subscript `paths[index]` reads is a member of the list. -/
theorem getD_mem_of_lt {l : List String} {n : ℕ} (h : n < l.length) :
    l.getD n "" ∈ l := by
  rw [List.getD_eq_getElem _ _ h]
  exact List.getElem_mem _

/-! ## C10: the unsaved-edit marker is substring containment of "EDIT" -/

/-- C10: with a non-empty list in image mode, `move_index` with
`force=False` refuses exactly when `"EDIT"` occurs in the current path:
then the state is unchanged except for exactly one error message; when the
marker is absent, or whenever `force=True`, navigation proceeds and the
index advances by `delta` modulo the list length. -/
theorem edit_marker_blocks_navigation (env : Env) (f : ℕ) (s : AppState)
    (d : ℤ) (hne : s.paths ≠ []) (hidx : s.index < s.paths.length)
    (hth : env.thumbnail = false) (hsl : env.slideshowRunning = false)
    (hacc : Accessible env s.paths) (hshuf : ShufflerOk env) :
    (hasEdit (s.paths.getD s.index "") = true →
      move_index env (f + 2) s true false d false =
        .ok (err s "Image has been edited, add ! to force", none)) ∧
    (hasEdit (s.paths.getD s.index "") = false →
      ∃ s', move_index env (f + 2) s true false d false = .ok (s', some true) ∧
        s'.index = (((s.index : ℤ) + d) % (s.paths.length : ℤ)).toNat) ∧
    (∃ s', move_index env (f + 2) s true false d true = .ok (s', some true) ∧
      s'.index = (((s.index : ℤ) + d) % (s.paths.length : ℤ)).toNat) := by
  refine ⟨?_, ?_, ?_⟩
  · intro he
    have hcfe : check_for_edit s false =
        .ok (err s "Image has been edited, add ! to force", 1) := by
      unfold check_for_edit
      rw [if_neg hne, if_pos hidx, if_pos ⟨he, rfl⟩]
    unfold move_index
    rw [if_neg (by simp [hne, hth]), hcfe]
    simp
  · intro he
    obtain ⟨s', hrun, hi, -⟩ :=
      move_index_ok env f s d false hne hidx hth hsl hacc hshuf (.inl he)
    exact ⟨s', hrun, hi⟩
  · obtain ⟨s', hrun, hi, -⟩ :=
      move_index_ok env f s d true hne hidx hth hsl hacc hshuf (.inr rfl)
    exact ⟨s', hrun, hi⟩

/-- C10 witness: a path containing "EDIT" blocks (one message, state
otherwise untouched); a clean path navigates; `force` overrides. -/
theorem edit_marker_blocks_navigation_witness :
    (move_index baseEnv 5 {baseState with paths := ["xEDITy.png"]} true false 1 false =
      .ok (err {baseState with paths := ["xEDITy.png"]}
        "Image has been edited, add ! to force", none)) ∧
    (∃ s', move_index baseEnv 5 {baseState with paths := ["xEDITy.png"]} true false 1 true =
      .ok (s', some true) ∧ s'.index = 0) := by
  have h := edit_marker_blocks_navigation baseEnv 3 {baseState with paths := ["xEDITy.png"]}
    1 (by decide) (by decide) (by decide) (by decide)
    (by intro p hp; exact ⟨rfl, ⟨100, 80, true⟩, rfl, rfl⟩) (by intro l; exact ⟨rfl, fun p hp => hp⟩)
  refine ⟨h.1 (by decide), ?_⟩
  obtain ⟨s', hrun, hi⟩ := h.2.2
  exact ⟨s', hrun, by rw [hi]; decide⟩

/-! ## C9: move round-trip law -/

set_option maxHeartbeats 2000000 in
/-- C9 counterexample: with both files present and decodable, moving
forward by 1 onto `"bEDIT.png"` and then back by 1 does NOT return to the
original index 0: the second move is refused by the edit marker and the
index stays at 1 (no reshuffle is involved). -/
theorem move_roundtrip_counterexample :
    (okState (afterOk
      (move_index baseEnv 5 {baseState with paths := ["a.png", "bEDIT.png"]}
        true false 1 false)
      (fun s1 => move_index baseEnv 5 s1 true false (-1) false))).map
        AppState.index = some 1 ∧
    ¬((okState (afterOk
      (move_index baseEnv 5 {baseState with paths := ["a.png", "bEDIT.png"]}
        true false 1 false)
      (fun s1 => move_index baseEnv 5 s1 true false (-1) false))).map
        AppState.index = some 0) := by
  have h : (okState (afterOk
      (move_index baseEnv 5 {baseState with paths := ["a.png", "bEDIT.png"]}
        true false 1 false)
      (fun s1 => move_index baseEnv 5 s1 true false (-1) false))).map
        AppState.index = some 1 := by
    rfl
  exact ⟨h, by rw [h]; simp⟩

/-- C9 amended: for every non-empty path list in image mode whose entries
are all accessible and none of which contains the "EDIT" marker,
`move_index` by `d` followed by `move_index` by `-d` returns the index to
its original value; a reshuffle on a forward wrap permutes only the paths
and does not affect the index round-trip. -/
theorem move_roundtrip_index (env : Env) (f1 f2 : ℕ) (s : AppState) (d : ℤ)
    (hne : s.paths ≠ []) (hidx : s.index < s.paths.length)
    (hth : env.thumbnail = false) (hsl : env.slideshowRunning = false)
    (hacc : Accessible env s.paths) (hshuf : ShufflerOk env)
    (hedits : ∀ p ∈ s.paths, hasEdit p = false) :
    (okState (afterOk (move_index env (f1 + 2) s true false d false)
      (fun s1 => move_index env (f2 + 2) s1 true false (-d) false))).map
        AppState.index = some s.index := by
  have hlen : 0 < s.paths.length := List.length_pos.mpr hne
  obtain ⟨s1, hrun1, hi1, hp1, he1, hn1, hs1, hl1, hm1⟩ :=
    move_index_ok env f1 s d false hne hidx hth hsl hacc hshuf
      (.inl (hedits _ (getD_mem_of_lt hidx)))
  have hne1 : s1.paths ≠ [] := by
    intro hc
    rw [hc] at hl1
    simp only [List.length_nil] at hl1
    omega
  have hidx1 : s1.index < s1.paths.length := by
    rw [hl1, hi1]
    have h1 : 0 ≤ ((s.index : ℤ) + d) % (s.paths.length : ℤ) :=
      Int.emod_nonneg _ (by exact_mod_cast Nat.pos_iff_ne_zero.mp hlen)
    have h2 : ((s.index : ℤ) + d) % (s.paths.length : ℤ) < (s.paths.length : ℤ) :=
      Int.emod_lt_of_pos _ (by exact_mod_cast hlen)
    omega
  have hacc1 : Accessible env s1.paths := fun p hp => hacc p (hm1 p hp)
  obtain ⟨s2, hrun2, hi2, hp2, he2, hn2, hs2, hl2, hm2⟩ :=
    move_index_ok env f2 s1 (-d) false hne1 hidx1 hth hsl hacc1 hshuf
      (.inl (hedits _ (hm1 _ (getD_mem_of_lt hidx1))))
  have hstep : afterOk (move_index env (f1 + 2) s true false d false)
      (fun t => move_index env (f2 + 2) t true false (-d) false) =
      move_index env (f2 + 2) s1 true false (-d) false := by
    unfold afterOk
    rw [hrun1]
  rw [hstep, hrun2]
  show some s2.index = some s.index
  congr 1
  rw [hi2, hl1, hi1]
  have hn0 : (s.paths.length : ℤ) ≠ 0 := by exact_mod_cast Nat.pos_iff_ne_zero.mp hlen
  have hnn : 0 ≤ ((s.index : ℤ) + d) % (s.paths.length : ℤ) :=
    Int.emod_nonneg _ hn0
  rw [Int.toNat_of_nonneg hnn, Int.emod_add_emod]
  have harith : (s.index : ℤ) + d + -d = (s.index : ℤ) := by ring
  rw [harith, Int.emod_eq_of_lt (by exact_mod_cast Nat.zero_le _)
    (by exact_mod_cast hidx)]
  exact Int.toNat_natCast s.index

/-- C9 amended witness: a concrete accessible two-image list, forward 1
then back 1 returns to index 0. -/
theorem move_roundtrip_index_witness :
    (okState (afterOk
      (move_index baseEnv 4 {baseState with paths := ["a.png", "b.png"]}
        true false 1 false)
      (fun t => move_index baseEnv 4 t true false (-1) false))).map
        AppState.index = some 0 :=
  move_roundtrip_index baseEnv 2 2 {baseState with paths := ["a.png", "b.png"]}
    1 (by decide) (by decide) (by decide) (by decide)
    (fun p _ => ⟨rfl, ⟨100, 80, true⟩, rfl, rfl⟩)
    (fun _ => ⟨rfl, fun _ hp => hp⟩) (by decide)

/-! ## C5: reshuffle on lap -/

/-- The environment whose drawn `random.shuffle` permutation is the
reversal of the list (one possible outcome). -/
def revEnv : Env := {baseEnv with shuffler := List.reverse}

/-- Two images, currently at index 1, shuffle setting on. -/
def shuffleState : AppState := {baseState with paths := ["a.png", "b.png"], index := 1, shuffleSetting := true}

/-- A second such fixture with different file names. -/
def shuffleState2 : AppState := {baseState with paths := ["c.png", "d.png"], index := 1, shuffleSetting := true}

set_option maxHeartbeats 2000000 in
/-- C5 counterexample: `random.shuffle` permutes the WHOLE list.  With the
shuffle setting on, a forward move from index 1 of `["a.png", "b.png"]`
lands on index 0 and triggers the reshuffle; the drawn permutation
(reversal, a possible outcome of `random.shuffle`) moves the entry at
position 0, so position 0 is NOT left unchanged. -/
theorem reshuffle_moves_head_counterexample :
    (okState (move_index revEnv 5 shuffleState true false 1 false)).map
        AppState.paths = some ["b.png", "a.png"] ∧
    ¬((okState (move_index revEnv 5 shuffleState true false 1 false)).map
        (fun t => t.paths.getD 0 "") = some "a.png") := by
  have h : (okState (move_index revEnv 5 shuffleState true false 1 false)).map
      AppState.paths = some ["b.png", "a.png"] := by
    rfl
  refine ⟨h, ?_⟩
  have h2 : (okState (move_index revEnv 5 shuffleState true false 1 false)).map
      (fun t => t.paths.getD 0 "") = some "b.png" := by
    rfl
  rw [h2]
  simp

/-- C5 amended: in image mode with the current path unedited and all paths
accessible, `move_index` reshuffles exactly when the shuffle setting is on
and a forward move (`d > 0`) lands exactly on index 0 — and the reshuffle
applies the drawn permutation to the ENTIRE list (including position 0);
otherwise the list is returned unchanged. -/
theorem reshuffle_on_lap_whole_list (env : Env) (f : ℕ) (s : AppState)
    (d : ℤ) (hne : s.paths ≠ []) (hidx : s.index < s.paths.length)
    (hth : env.thumbnail = false) (hsl : env.slideshowRunning = false)
    (hacc : Accessible env s.paths) (hshuf : ShufflerOk env)
    (hedit : hasEdit (s.paths.getD s.index "") = false) :
    (okState (move_index env (f + 2) s true false d false)).map
        AppState.paths =
      some (if s.shuffleSetting = true ∧
          (((s.index : ℤ) + d) % (s.paths.length : ℤ)).toNat = 0 ∧ 0 < d
        then env.shuffler s.paths else s.paths) := by
  obtain ⟨s', hrun, -, hp, -⟩ :=
    move_index_ok env f s d false hne hidx hth hsl hacc hshuf (.inl hedit)
  rw [hrun]
  show some s'.paths = _
  rw [hp]

/-- C5 amended witness: with the reversal permutation drawn, the lap onto
index 0 reshuffles the whole list; a backward move does not reshuffle. -/
theorem reshuffle_on_lap_whole_list_witness :
    (okState (move_index revEnv 4 shuffleState2 true false 1 false)).map
        AppState.paths = some ["d.png", "c.png"] ∧
    (okState (move_index revEnv 4 shuffleState2 true false (-1) false)).map
        AppState.paths = some ["c.png", "d.png"] := by
  constructor
  · have h := reshuffle_on_lap_whole_list revEnv 2 shuffleState2 1
      (by decide) (by decide) (by decide) (by decide)
      (fun p _ => ⟨rfl, ⟨100, 80, true⟩, rfl, rfl⟩)
      (fun _ => ⟨List.length_reverse _, fun _ hp => (List.mem_reverse).mp hp⟩)
      (by decide)
    rw [h]
    decide
  · have h := reshuffle_on_lap_whole_list revEnv 2 shuffleState2 (-1)
      (by decide) (by decide) (by decide) (by decide)
      (fun p _ => ⟨rfl, ⟨100, 80, true⟩, rfl, rfl⟩)
      (fun _ => ⟨List.length_reverse _, fun _ hp => (List.mem_reverse).mp hp⟩)
      (by decide)
    rw [h]
    decide

/-! ## C6: out-of-range jump positions -/

/-- Three images, currently at index 1, numeric prefix buffer holding "0". -/
def jumpState : AppState := {baseState with paths := ["a.png", "b.png", "c.png"], index := 1, num_str := "0"}

set_option maxHeartbeats 2000000 in
/-- C6 counterexample: position 0 is outside `[1, len]`, yet `move_pos`
accepts it (the guard is `pos < 0`, not `pos < 1`): from index 1 of three
paths it navigates to index 2 (wrap to the LAST entry via `-1 mod len`)
and reports no error at all, instead of leaving the index unchanged and
reporting an out-of-range error. -/
theorem jump_to_zero_counterexample :
    (okState (move_pos baseEnv 5 jumpState false false)).map
        AppState.index = some 2 ∧
    (okState (move_pos baseEnv 5 jumpState false false)).map
        AppState.errMessages = some [] ∧
    ¬((okState (move_pos baseEnv 5 jumpState false false)).map
        AppState.index = some 1) := by
  have h : (okState (move_pos baseEnv 5 jumpState false false)).map
      AppState.index = some 2 := by
    rfl
  refine ⟨h, by rfl, by rw [h]; simp⟩

/-- C6 amended: a numeric position strictly greater than `len` (the only
reachable way to be outside `[0, len]`, since the numeric buffer holds
digits) is rejected: the state is unchanged except for exactly one
"Warning: Unsupported index" message and the index is untouched.  Position
0, however, is accepted and wraps to the last entry `len - 1`. -/
theorem jump_to_rejects_or_wraps :
    (∀ (env : Env) (f : ℕ) (s : AppState) (forward force : Bool),
      s.paths ≠ [] → s.index < s.paths.length →
      hasEdit (s.paths.getD s.index "") = false →
      s.num_str ≠ "" →
      (s.paths.length : ℤ) < (digitsVal s.num_str.data : ℤ) →
      move_pos env (f + 1) s forward force =
        .ok (err s "Warning: Unsupported index", some false)) ∧
    (∀ (env : Env) (f : ℕ) (s : AppState) (forward force : Bool),
      s.paths ≠ [] → s.index < s.paths.length →
      env.thumbnail = false → env.slideshowRunning = false →
      Accessible env s.paths → ShufflerOk env →
      (∀ p ∈ s.paths, hasEdit p = false) →
      s.num_str = "0" →
      ∃ s', move_pos env (f + 3) s forward force = .ok (s', some true) ∧
        s'.index = s.paths.length - 1 ∧ s'.errMessages = s.errMessages) := by
  constructor
  · intro env f s forward force hne hidx hedit hns hbig
    have hcfe : check_for_edit s force = .ok (s, 0) := by
      unfold check_for_edit
      rw [if_neg hne, if_pos hidx, if_neg]
      intro hcontra
      rw [hedit] at hcontra
      exact absurd hcontra.1 (by simp)
    unfold move_pos
    rw [hcfe]
    simp only [if_neg (by simp : ¬(0 = 1)), if_pos hns]
    rw [if_pos (Or.inr hbig)]
  · intro env f s forward force hne hidx hth hsl hacc hshuf hedits hns
    have hlen : 0 < s.paths.length := List.length_pos.mpr hne
    have hcfe : check_for_edit s force = .ok (s, 0) := by
      unfold check_for_edit
      rw [if_neg hne, if_pos hidx, if_neg]
      intro hcontra
      rw [hedits _ (getD_mem_of_lt hidx)] at hcontra
      exact absurd hcontra.1 (by simp)
    have hns' : s.num_str ≠ "" := by rw [hns]; decide
    have hval : ((digitsVal s.num_str.data : ℕ) : ℤ) = 0 := by
      rw [hns]
      decide
    obtain ⟨s2, hrun2, hi2, hp2, he2, hn2, hs2, hl2, hm2⟩ :=
      move_index_ok env f s (((digitsVal s.num_str.data : ℕ) : ℤ) - s.index - 1)
        false hne hidx hth hsl hacc hshuf
        (.inl (hedits _ (getD_mem_of_lt hidx)))
    unfold move_pos
    rw [hcfe]
    simp only [if_neg (by simp : ¬(0 = 1)), if_pos hns']
    rw [if_neg, if_neg (by rw [hth]; exact Bool.false_ne_true)]
    · rw [hrun2]
      refine ⟨{s2 with user_zoomed := false, num_str := ""}, rfl, ?_, ?_⟩
      · show s2.index = s.paths.length - 1
        rw [hi2]
        have harith : (s.index : ℤ) +
            (((digitsVal s.num_str.data : ℕ) : ℤ) - s.index - 1) = -1 := by
          rw [hval]
          ring
        rw [harith]
        have h1 : (-1 : ℤ) % (s.paths.length : ℤ) =
            ((s.paths.length : ℤ) - 1) % (s.paths.length : ℤ) := by
          conv_lhs => rw [show (-1 : ℤ) =
            ((s.paths.length : ℤ) - 1) + (s.paths.length : ℤ) * (-1) by ring]
          rw [Int.add_mul_emod_self_left]
        rw [h1, Int.emod_eq_of_lt (by omega) (by omega)]
        omega
      · show s2.errMessages = s.errMessages
        exact he2
    · rw [hval]
      intro hcontra
      rcases hcontra with hlt | hgt
      · omega
      · have : (0 : ℤ) ≤ (s.paths.length : ℤ) := by exact_mod_cast Nat.zero_le _
        omega

/-- C6 amended witness: a prefix of "7" on a single-image list is rejected
with one warning; a prefix of "0" on the three-image fixture wraps to the
last index 2 with no error message. -/
theorem jump_to_rejects_or_wraps_witness :
    (move_pos baseEnv 3 {baseState with num_str := "7"} true false =
      .ok (err {baseState with num_str := "7"} "Warning: Unsupported index",
        some false)) ∧
    (okState (move_pos baseEnv 4 jumpState true false)).map
        AppState.index = some 2 := by
  constructor
  · exact jump_to_rejects_or_wraps.1 baseEnv 2 {baseState with num_str := "7"}
      true false (by decide) (by decide) (by decide) (by decide) (by decide)
  · obtain ⟨s', hrun, hi, -⟩ := jump_to_rejects_or_wraps.2 baseEnv 1 jumpState
      true false (by decide) (by decide) (by decide) (by decide)
      (fun p _ => ⟨rfl, ⟨100, 80, true⟩, rfl, rfl⟩)
      (fun _ => ⟨rfl, fun _ hp => hp⟩) (by decide) (by decide)
    rw [hrun]
    show some s'.index = some 2
    rw [hi]
    rfl

/-! ## C3: navigation to a vanished file -/

/-- Environment where `"c.png"` passes the existence check but fails to
decode (`GLib.Error`): the file vanished between check and decode. -/
def vanishEnv : Env := {baseEnv with decode := fun p => if p = "c.png" then none else some ⟨100, 80, true⟩}

/-- Four images, currently at index 2 (`"c.png"`). -/
def vanishState : AppState := {baseState with paths := ["a.png", "b.png", "c.png", "d.png"], index := 2}

set_option maxHeartbeats 2000000 in
/-- C3 counterexample: navigating to the vanished `"c.png"` (index 2 of
four) removes it and reports one error, but the retry re-navigates to the
FIRST entry (index 0, via `move_pos(False)` whose backward position is 1),
not to the previous valid entry `"b.png"` (index 1) that the claim
demands. -/
theorem vanished_retry_counterexample :
    (okState (show_image vanishEnv 6 vanishState "c.png" true)).map
        AppState.index = some 0 ∧
    (okState (show_image vanishEnv 6 vanishState "c.png" true)).map
        AppState.paths = some ["a.png", "b.png", "d.png"] ∧
    (okState (show_image vanishEnv 6 vanishState "c.png" true)).map
        AppState.errMessages = some ["Error: file not accessible"] ∧
    ¬((okState (show_image vanishEnv 6 vanishState "c.png" true)).map
        AppState.index = some 1) := by
  have h : (okState (show_image vanishEnv 6 vanishState "c.png" true)).map
      AppState.index = some 0 := by
    rfl
  exact ⟨h, by rfl, by rfl, by rw [h]; simp⟩

/-- C3 amended: navigating to a path that passes the existence check but
fails to decode removes exactly that path, reports exactly one error
message, and re-navigates BACKWARD TO POSITION 1 — the first entry — via
`move_pos(False)` (not to the previous valid entry); the retry re-enters
the full navigation machinery, so an inaccessible retry target would
trigger the same removal again rather than stopping after one hop.  Here
the removed path is not the last entry and the retry target is accessible,
so one hop lands on index 0. -/
theorem vanished_file_retry (env : Env) (f : ℕ) (u : Bool)
    (A B : List String) (t : String) (s : AppState)
    (hpaths : s.paths = A ++ t :: B) (hidx : s.index = A.length)
    (hB : B ≠ []) (htA : t ∉ A)
    (hex : env.fsExists t = true) (hdec : env.decode t = none)
    (hth : env.thumbnail = false) (hsl : env.slideshowRunning = false)
    (hacc : Accessible env (A ++ B)) (hshuf : ShufflerOk env)
    (hnoedit : ∀ p ∈ A ++ B, hasEdit p = false) (hns : s.num_str = "") :
    ∃ s', show_image env (f + 4) s t u = .ok (s', 1) ∧
      s'.index = 0 ∧ s'.paths = A ++ B ∧
      s'.errMessages = s.errMessages ++ ["Error: file not accessible"] := by
  have hBpos : 0 < B.length := List.length_pos.mpr hB
  have herase : s.paths.erase t = A ++ B := by
    rw [hpaths, List.erase_append_right _ htA, List.erase_cons_head]
  set E : AppState := err {s with paths := s.paths.erase t}
    "Error: file not accessible" with hE
  have hEpaths : E.paths = A ++ B := by
    rw [hE]
    show s.paths.erase t = A ++ B
    exact herase
  have hEidx : E.index = A.length := by
    rw [hE]
    show s.index = A.length
    exact hidx
  have hEnum : E.num_str = "" := by
    rw [hE]
    show s.num_str = ""
    exact hns
  have hEerr : E.errMessages = s.errMessages ++ ["Error: file not accessible"] := by
    rw [hE]
    rfl
  have hEne : E.paths ≠ [] := by
    rw [hEpaths]
    intro hc
    have := congrArg List.length hc
    simp only [List.length_append, List.length_nil] at this
    omega
  have hEidxlt : E.index < E.paths.length := by
    rw [hEpaths, hEidx, List.length_append]
    omega
  have hEacc : Accessible env E.paths := by
    rw [hEpaths]
    exact hacc
  have hEedit : hasEdit (E.paths.getD E.index "") = false := by
    apply hnoedit
    rw [← hEpaths]
    exact getD_mem_of_lt hEidxlt
  have hcfe : check_for_edit E false = .ok (E, 0) := by
    unfold check_for_edit
    rw [if_neg hEne, if_pos hEidxlt, if_neg]
    intro hcontra
    rw [hEedit] at hcontra
    exact absurd hcontra.1 (by simp)
  obtain ⟨s2, hrun2, hi2, hp2, he2, hn2, hs2, hl2, hm2⟩ :=
    move_index_ok env f E (1 - (E.index : ℤ) - 1) false hEne hEidxlt hth hsl
      hEacc hshuf (.inl hEedit)
  have hmp : move_pos env (f + 3) E false false =
      .ok ({s2 with user_zoomed := false, num_str := ""}, some true) := by
    unfold move_pos
    rw [hcfe]
    simp only [if_neg (by simp : ¬(0 = 1)),
      if_neg (by rw [hEnum]; simp : ¬(E.num_str ≠ "")), Bool.false_eq_true,
      ite_false, if_false]
    rw [if_neg, if_neg (by rw [hth]; exact Bool.false_ne_true)]
    · rw [hrun2]
    · rw [hEpaths]
      intro hcontra
      rcases hcontra with hlt | hgt
      · omega
      · have h1 : (1 : ℤ) ≤ ((A ++ B).length : ℤ) := by
          rw [List.length_append]
          exact_mod_cast Nat.succ_le_of_lt (by omega)
        omega
  have hi2' : s2.index = 0 := by
    rw [hi2]
    have harith : (E.index : ℤ) + (1 - (E.index : ℤ) - 1) = 0 := by ring
    rw [harith, Int.zero_emod]
    rfl
  have hp2' : s2.paths = A ++ B := by
    rw [hp2, if_neg, hEpaths]
    intro hcontra
    have h3 := hcontra.2.2
    omega
  refine ⟨{s2 with user_zoomed := false, num_str := ""}, ?_, ?_, ?_, ?_⟩
  · show show_image env (f + 4) s t u = _
    unfold show_image
    rw [if_neg (by rw [hex]; simp : ¬(env.fsExists t = false))]
    simp only [hdec]
    rw [hmp]
  · show s2.index = 0
    exact hi2'
  · show s2.paths = A ++ B
    exact hp2'
  · show s2.errMessages = _
    rw [he2, hEerr]

/-- C3 amended witness: the concrete vanished-file fixture, removed path
not last, retry target accessible: one error message, re-navigation to
index 0. -/
theorem vanished_file_retry_witness :
    (okState (show_image vanishEnv 6 vanishState "c.png" false)).map
        AppState.index = some 0 ∧
    (okState (show_image vanishEnv 6 vanishState "c.png" false)).map
        AppState.errMessages = some ["Error: file not accessible"] := by
  obtain ⟨s', hrun, hi, hp, he⟩ := vanished_file_retry vanishEnv 2 false
    ["a.png", "b.png"] ["d.png"] "c.png" vanishState rfl rfl (by decide)
    (by decide) rfl rfl rfl rfl
    (by intro p hp; fin_cases hp <;> exact ⟨rfl, ⟨100, 80, true⟩, rfl, rfl⟩)
    (fun _ => ⟨rfl, fun _ hp => hp⟩) (by decide) rfl
  rw [hrun]
  constructor
  · show some s'.index = some 0
    rw [hi]
  · show some s'.errMessages = some ["Error: file not accessible"]
    rw [he]
    rfl
